import Mathlib

/-!
Verification of the mysql-cdc repository (Go) against its natural-language
specification.  The Go source is shallowly embedded: pure fragments become
Lean functions, stateful fragments become explicit state passing.  Go byte
slices and Go strings are modelled as `List Nat` (byte sequences); Go machine
integers are `Nat` with explicit `% 2^32` where truncation matters.  External
effects (the MySQL catalog query, the goja JavaScript engine, the NATS
connection, the file system) are abstracted as parameters or explicit state
fields; every abstraction is noted at the definition it concerns.
-/

/-! ## String helpers (models of the Go standard library pieces used) -/

/-- Model of Go `strings.Contains` on character lists: `containsSub l pat`
is true when `pat` occurs as a contiguous sublist of `l`. -/
def containsSub (l pat : List Char) : Bool :=
  match l with
  | [] => pat.isEmpty
  | _ :: t => pat.isPrefixOf l || containsSub t pat

/-- Model of Go `strings.Contains` on strings. -/
def strContainsSub (s pat : String) : Bool :=
  containsSub s.toList pat.toList

/-- Model of Go `strings.ToUpper` (ASCII-relevant part): upper-case every
character.  Defined by mapping over the character list so that it reduces
inside the kernel. -/
def strToUpper (s : String) : String :=
  String.mk (s.toList.map Char.toUpper)

/-! ## Row-decoder value model (src/unnamed/part_003, `convertValue`) -/

/-- A decoded row value as it appears in the Go `interface{}` cell of a row
tuple.  `bytes` is a Go `[]byte`; `str` is a Go `string`, which in Go is an
arbitrary byte sequence (a `[]byte`-to-`string` conversion copies the bytes
verbatim), so both carry `List Nat`.  Other value kinds (numbers, booleans)
pass through `convertValue` unchanged; `intV` stands for them. -/
inductive GoValue where
  | nullV : GoValue
  | bytes : List Nat → GoValue
  | str : List Nat → GoValue
  | intV : Int → GoValue
deriving DecidableEq, Repr

/-- Embedding of `convertValue` (src/unnamed/part_003 lines 162-199).
The Go code:
1. returns nil unchanged;
2. when `colIndex < len(columnTypes)` and the upper-cased type contains
   "TEXT" and the value is `[]byte`, returns `string(b)`;
3. otherwise, for any `[]byte` value (with or without type info), when
   `0 < len(b)` and `len(b) < 65535` it returns `string(b)` — the source
   also compares `len(string(b)) == len(b)`, but in Go a `[]byte`-to-`string`
   conversion preserves the byte length, so that comparison always holds and
   is not a separate branch here;
4. otherwise returns the value unchanged. -/
def convertValue (columnTypes : List String) (value : GoValue) (colIndex : Nat) : GoValue :=
  if value = .nullV then .nullV
  else
    let textConverted : Option GoValue :=
      if h : colIndex < columnTypes.length then
        if strContainsSub (strToUpper columnTypes[colIndex]) "TEXT" then
          match value with
          | .bytes b => some (.str b)
          | _ => none
        else none
      else none
    match textConverted with
    | some s => s
    | none =>
      match value with
      | .bytes b =>
        if 0 < b.length then
          if b.length < 65535 then .str b
          else value
        else value
      | _ => value

/-! ## Base64 (model of Go `encoding/json`'s serialization of `[]byte`,
which uses `encoding/base64` standard encoding with padding) -/

/-- The standard base64 alphabet. -/
def base64Alphabet : List Char :=
  "ABCDEFGHIJKLMNOPQRSTUVWXYZabcdefghijklmnopqrstuvwxyz0123456789+/".toList

/-- Character for a 6-bit group. -/
def base64Char (n : Nat) : Char :=
  base64Alphabet.getD n 'A'

/-- Standard base64 chunking with '=' padding. -/
def base64Chunks : List Nat → List Char
  | b1 :: b2 :: b3 :: t =>
      base64Char (b1 / 4) ::
      base64Char ((b1 % 4) * 16 + b2 / 16) ::
      base64Char ((b2 % 16) * 4 + b3 / 64) ::
      base64Char (b3 % 64) ::
      base64Chunks t
  | [b1, b2] =>
      [base64Char (b1 / 4), base64Char ((b1 % 4) * 16 + b2 / 16),
       base64Char ((b2 % 16) * 4), '=']
  | [b1] =>
      [base64Char (b1 / 4), base64Char ((b1 % 4) * 16), '=', '=']
  | [] => []

/-- Base64 encoding of a byte sequence, as Go's `json.Marshal` applies to a
`[]byte` value before quoting it as a JSON string. -/
def base64Encode (b : List Nat) : String :=
  String.mk (base64Chunks b)

/-! ## Change-event model and row decoding
(src/internal/models/change_event.go, src/unnamed/part_003 `ProcessRowEvent`) -/

/-- Embedding of the `ChangeEvent` struct.  A row map is kept as an ordered
association list (Go uses `map[string]interface{}`; only key/value content
matters to the claims below).  The `RawJSON` opaque tail carried by the
script path is not needed by any claim and is omitted here. -/
structure ChangeEventM where
  type : String
  database : String
  table : String
  timestamp : Int
  rows : List (List (String × GoValue))
  oldRows : List (List (String × GoValue))
deriving DecidableEq, Repr

/-- One row map, as built by the inner loops of `ProcessRowEvent`
(src/unnamed/part_003 lines 207-228): for every index `j` below both the
tuple width and the number of column names, bind `columnNames[j]` to
`convertValue(tuple[j], j)`. -/
def mkRowMap (columnNames columnTypes : List String) (tuple : List GoValue) :
    List (String × GoValue) :=
  (tuple.zip columnNames).enum.map
    (fun p => (p.2.2, convertValue columnTypes p.2.1 p.1))

/-- The UPDATE pairing loop of `ProcessRowEvent` (lines 204-220): tuples are
consumed two at a time, `[old_row_1, new_row_1, old_row_2, new_row_2, ...]`;
a trailing unpaired tuple (the `i+1 < len` guard) is dropped. -/
def updatePairs {α : Type} : List α → List (α × α)
  | a :: b :: t => (a, b) :: updatePairs t
  | _ => []

/-- Interleaving of a pre-image list with a post-image list, the shape in
which the binlog delivers UPDATE tuples. -/
def interleave2 {α : Type} : List α → List α → List α
  | a :: as, b :: bs => a :: b :: interleave2 as bs
  | _, _ => []

/-- Embedding of `Processor.ProcessRowEvent` (src/unnamed/part_003
lines 115-233), restricted to its row-building part.  The table-map lookup,
the column-name/type resolution (table map first, then the schema catalog)
and the wall clock are performed by the caller in Go; they enter here as the
parameters `database`, `table`, `timestamp`, `columnNames`, `columnTypes`.
`tuples` is `event.Rows`, the raw row tuples. -/
def processRowEvent (database table : String) (timestamp : Int)
    (columnNames columnTypes : List String)
    (tuples : List (List GoValue)) (eventType : String) : ChangeEventM :=
  if eventType = "UPDATE" then
    { type := eventType, database := database, table := table,
      timestamp := timestamp,
      rows := (updatePairs tuples).map
        (fun p => mkRowMap columnNames columnTypes p.2),
      oldRows := (updatePairs tuples).map
        (fun p => mkRowMap columnNames columnTypes p.1) }
  else
    { type := eventType, database := database, table := table,
      timestamp := timestamp,
      rows := tuples.map (mkRowMap columnNames columnTypes),
      oldRows := [] }

/-! ## Transformer, rule mode
(src/internal/processor/transformer.go `RuleMatcher`, `NewTransformer`,
`transformRow`) -/

/-- Embedding of the `RuleMatcher` built by `NewTransformer`
(src/internal/processor/transformer.go lines 76-101): `includeFields` and
`excludeFields` are the Go `include` and `exclude` sets, holding the
configured field names already lower-cased (the Go code lower-cases them
when building the sets; the Go names are Lean keywords); `rename` and `addFields` are taken
from the configuration verbatim, without case normalisation. -/
structure RuleMatcher where
  database : String
  table : String
  includeFields : List String
  excludeFields : List String
  rename : List (String × String)
  addFields : List (String × String)
deriving DecidableEq, Repr

/-- Model of Go `strings.ToLower` (ASCII-relevant part), defined over the
character list so that it reduces inside the kernel. -/
def strToLower (s : String) : String :=
  String.mk (s.toList.map Char.toLower)

/-- Embedding of `Transformer.transformRow` (src/internal/processor/
transformer.go lines 341-377).  Static `addFields` entries are inserted
first; then every input field is dropped by the exclude set, dropped by a
non-empty include set that misses it, or kept under the rename target when
`rename` holds the lower-cased key, else under its original key, with the
value copied verbatim.  The value type is a parameter because the Go code
treats values as opaque `interface{}`; `toVal` injects the `string`-typed
`addFields` values into it.  Go's `map` output collapses duplicate keys;
the claims below only use membership, which the list preserves. -/
def transformRow {α : Type} (toVal : String → α) (rule : RuleMatcher)
    (row : List (String × α)) : List (String × α) :=
  rule.addFields.map (fun kv => (kv.1, toVal kv.2)) ++
  row.filterMap (fun kv =>
    let keyLower := strToLower kv.1
    if (!rule.excludeFields.isEmpty) && rule.excludeFields.contains keyLower then none
    else if (!rule.includeFields.isEmpty) && !(rule.includeFields.contains keyLower) then none
    else some (match rule.rename.lookup keyLower with
               | some newName => newName
               | none => kv.1,
               kv.2))

/-! ## Transformer, script mode, and the publish decision in the pipeline
(src/internal/processor/transformer.go `transformWithJavaScript` lines
161-293; src/unnamed/part_003 `Processor.Start` lines 292-314) -/

/-- The value returned by the resolved JavaScript transform function, as
observed by the host after `callable(...)`.  The goja engine itself is
external; its outcome enters the model as this parameter.  `jsVal` carries
the change event that the host-side extraction (lines 239-292) rebuilds from
the returned object. -/
inductive JSReturn where
  | jsUndefined : JSReturn
  | jsNull : JSReturn
  | jsVal : ChangeEventM → JSReturn
deriving DecidableEq

/-- The error component of `Transformer.Transform`:
`eventRejected` is `ErrEventRejected`; `otherError` stands for any other
transform failure (script exception, marshalling failure). -/
inductive TransformErr where
  | eventRejected : TransformErr
  | otherError : TransformErr
deriving DecidableEq

/-- Embedding of the tail of `transformWithJavaScript` (lines 226-293): if
the function result is null or undefined the event is rejected with
`ErrEventRejected` and no event is returned (lines 232-236); otherwise the
extracted event is returned with no error.  The Go pair
`(*ChangeEvent, error)` becomes `Option ChangeEventM × Option TransformErr`. -/
def transformWithJavaScript (result : JSReturn) :
    Option ChangeEventM × Option TransformErr :=
  match result with
  | .jsUndefined => (none, some .eventRejected)
  | .jsNull => (none, some .eventRejected)
  | .jsVal e => (some e, none)

/-- Embedding of the publish decision in `Processor.Start` (src/unnamed/
part_003 lines 292-314) for one row event whose transform returned `ret`:
on `ErrEventRejected` the loop logs at debug and continues without
publishing; on any other error it logs and continues without publishing; on
a nil event it continues without publishing; otherwise the event is handed
to `publisher.Publish`.  The returned option is the message the Sink
receives (`none` = no message); in every case the loop proceeds to the next
event. -/
def startPublishStep (ret : Option ChangeEventM × Option TransformErr) :
    Option ChangeEventM :=
  match ret.2 with
  | some _ => none
  | none =>
    match ret.1 with
    | none => none
    | some e => some e

/-! ## Preflight permission check (src/mysql_checker.go
`CheckConnectionAndPermissions`, lines 56-100) -/

/-- The privileges required by the checker (src/mysql_checker.go
lines 56-60). -/
def requiredPrivs : List String :=
  ["REPLICATION SLAVE", "REPLICATION CLIENT", "SELECT"]

/-- Model of the `strings.Builder` concatenation of the `SHOW GRANTS` rows
(lines 74-88): rows joined with "; ". -/
def joinGrants (rows : List String) : String :=
  String.intercalate "; " rows

/-- Embedding of the grant check (src/mysql_checker.go lines 88-100): the
concatenated grants are upper-cased, every required privilege missing as a
substring is collected, and the check passes exactly when nothing is
missing.  The surrounding connection handling and the later binlog checks
are independent and not part of this claim. -/
def checkRequiredGrants (grantsStr : String) : Bool :=
  let grantsUpper := strToUpper grantsStr
  let missingPrivs := requiredPrivs.filter
    (fun priv => !(strContainsSub grantsUpper priv))
  missingPrivs.isEmpty

/-! ## Position store (src/unnamed/part_002 `NewReader`, `SavePosition`,
`ReadEvent`).  File contents are modelled as `List Char`; the position file
is `Option (List Char)` with `none` for a missing file. -/

/-- The mutable state of the binlog `Reader` together with the position
file it writes (src/unnamed/part_002 lines 26-33).  `posFile` is the
content of the file at `positionFile`; writes are modelled as succeeding
(`SavePosition` logs and keeps the in-memory state unchanged on a write
error, a path outside the claims below). -/
structure ReaderState where
  posName : String
  posPos : Nat
  currentFile : String
  posFile : Option String
deriving DecidableEq, Repr

/-- Embedding of `Reader.SavePosition` (src/unnamed/part_002 lines
116-132): an empty `name` falls back to the remembered current file; if the
resulting name is still empty the call returns successfully without any
write; otherwise the file is overwritten with `"name:pos"` and the in-memory
position and current file are updated.  `pos` is a `uint32` value. -/
def savePosition (s : ReaderState) (name : String) (pos : Nat) : ReaderState :=
  let n := if name = "" then s.currentFile else name
  if n = "" then s
  else
    { posName := n, posPos := pos, currentFile := n,
      posFile := some (n ++ ":" ++ toString pos) }

/-- Embedding of the rotate branch of `Reader.ReadEvent` (src/unnamed/
part_002 lines 144-151): the in-memory current file and position take the
announced next log name and offset (`uint32(e.Position)` truncates the
64-bit offset), then `SavePosition` persists them. -/
def readEventRotate (s : ReaderState) (nextLogName : String) (position : Nat) :
    ReaderState :=
  let s1 : ReaderState :=
    { s with currentFile := nextLogName, posName := nextLogName,
             posPos := position % 2 ^ 32 }
  savePosition s1 s1.currentFile s1.posPos

/-! ## Schema cache (src/unnamed/part_003 `Processor.getColumnInfo`,
lines 71-112) -/

/-- The cache key `fmt.Sprintf("%s.%s", database, table)` (src/unnamed/
part_003 line 73). -/
def cacheKey (database table : String) : String :=
  database ++ "." ++ table

/-- The two cache maps of the `Processor` (src/unnamed/part_003 lines
25-26), keyed by `cacheKey`. -/
structure SchemaCache where
  columnNames : List (String × List String)
  columnTypes : List (String × List String)
deriving DecidableEq, Repr

/-- Embedding of `Processor.getColumnInfo` (src/unnamed/part_003 lines
71-112) on its success path.  The INFORMATION_SCHEMA query is external; its
result for `(database, table)` enters as `fetchedNames`/`fetchedTypes`.  On
a cache hit the cached names are returned with the cached types (the Go
`types, _ := p.columnTypes[cacheKey]` yields the zero value, here `[]`, when
absent); on a miss the fetched lists are stored under the key and
returned. -/
def getColumnInfo (cache : SchemaCache) (database table : String)
    (fetchedNames fetchedTypes : List String) :
    (List String × List String) × SchemaCache :=
  let key := cacheKey database table
  match cache.columnNames.lookup key with
  | some cols => ((cols, (cache.columnTypes.lookup key).getD []), cache)
  | none =>
    ((fetchedNames, fetchedTypes),
     { columnNames := (key, fetchedNames) :: cache.columnNames,
       columnTypes := (key, fetchedTypes) :: cache.columnTypes })

/-! ## Helper lemmas -/

theorem updatePairs_interleave2 {α : Type} :
    ∀ (olds news : List α), olds.length = news.length →
      updatePairs (interleave2 olds news) = olds.zip news := by
  intro olds
  induction olds with
  | nil =>
    intro news h
    cases news with
    | nil => rfl
    | cons b bs => simp at h
  | cons a as ih =>
    intro news h
    cases news with
    | nil => simp at h
    | cons b bs =>
      simp only [List.length_cons, Nat.succ.injEq] at h
      simp [interleave2, updatePairs, List.zip, List.zipWith, ih bs h]

theorem append_cons_inj_of_not_mem {c : Char} :
    ∀ {l1 l2 r1 r2 : List Char}, c ∉ l1 → c ∉ l2 →
      l1 ++ c :: r1 = l2 ++ c :: r2 → l1 = l2 ∧ r1 = r2 := by
  intro l1
  induction l1 with
  | nil =>
    intro l2 r1 r2 _ h2 heq
    cases l2 with
    | nil => simpa using heq
    | cons b t =>
      simp only [List.nil_append, List.cons_append, List.cons.injEq] at heq
      exact absurd (heq.1 ▸ List.mem_cons_self b t) h2
  | cons a t ih =>
    intro l2 r1 r2 h1 h2 heq
    cases l2 with
    | nil =>
      simp only [List.cons_append, List.nil_append, List.cons.injEq] at heq
      exact absurd (heq.1 ▸ List.mem_cons_self a t) h1
    | cons b u =>
      simp only [List.cons_append, List.cons.injEq] at heq
      have ht : c ∉ t := fun hc => h1 (List.mem_cons_of_mem a hc)
      have hu : c ∉ u := fun hc => h2 (List.mem_cons_of_mem b hc)
      obtain ⟨hl, hr⟩ := ih ht hu heq.2
      exact ⟨by simp [heq.1, hl], hr⟩

/-! ## Claim C1 -/

/-- C1: the claim states that a decoded raw byte value whose column type is
not textual (a BLOB column) is left as raw bytes, so the published JSON
carries its base64 form; for the bytes 0x00 0x01 0xFF that form is "AAH/".
The code violates this: `convertValue` falls through to the byte-to-string
heuristic even when type information is present, so the 3-byte BLOB value is
returned as a Go string, not as raw bytes; only a raw `[]byte` would be
base64-encoded by the JSON serializer.  This contradicts the comment in the
source ("BLOB types are kept as []byte which will be base64 encoded in
JSON", src/unnamed/part_003 lines 178-179), so the code, not the claim, is
wrong.  The last conjunct confirms that the base64 form of those raw bytes
is the "AAH/" the claim expects. -/
theorem blob_value_not_kept_as_bytes :
    convertValue ["blob"] (.bytes [0, 1, 255]) 0 = .str [0, 1, 255]
    ∧ convertValue ["blob"] (.bytes [0, 1, 255]) 0 ≠ .bytes [0, 1, 255]
    ∧ base64Encode [0, 1, 255] = "AAH/" := by decide

/-! ## Claim C2 -/

/-- C2 counterexample: the claim says the heuristic fallback applies only
when column type information is missing, and emits a string exactly when
the length is below 64 KiB and the byte-count equals the rune-count.  All
three parts fail on the code: (1) with type info present for a BLOB column
the single byte 0x41 is still converted to a string; (2) without type info,
the two-byte UTF-8 sequence 0xC3 0xA9 (one rune, two bytes) is converted to
a string although its byte-count differs from its rune-count; (3) the empty
byte value, which the claim would emit as a string (0 bytes = 0 runes,
below the ceiling), is left as raw bytes. -/
theorem heuristic_applies_with_type_info :
    convertValue ["blob"] (.bytes [65]) 0 = .str [65]
    ∧ convertValue ["blob"] (.bytes [65]) 0 ≠ .bytes [65]
    ∧ convertValue [] (.bytes [195, 169]) 0 = .str [195, 169]
    ∧ convertValue [] (.bytes []) 0 = .bytes [] := by decide

/-- C2 amended: the heuristic fallback applies to every raw byte value that
the textual branch did not convert — whether or not column type information
is present — and emits the value as a string exactly when its byte length
is at least 1 and strictly below 65535; every other raw byte value reaching
the fallback is emitted unchanged as raw bytes.  The hypothesis states that
the type at `colIndex` (the empty string when absent) is not textual, i.e.
that the textual branch does not fire. -/
theorem heuristic_fallback_characterization
    (columnTypes : List String) (b : List Nat) (colIndex : Nat)
    (htype : strContainsSub (strToUpper (columnTypes.getD colIndex "")) "TEXT" = false) :
    convertValue columnTypes (.bytes b) colIndex =
      if 0 < b.length ∧ b.length < 65535 then .str b else .bytes b := by
  by_cases h : colIndex < columnTypes.length
  · have hget : columnTypes[colIndex] = columnTypes.getD colIndex "" :=
      (List.getD_eq_getElem columnTypes "" h).symm
    simp only [convertValue, reduceCtorEq, if_false, dif_pos h, hget, htype,
      Bool.false_eq_true, if_false]
    by_cases h1 : 0 < b.length
    · by_cases h2 : b.length < 65535
      · simp [h1, h2]
      · simp [h1, h2]
    · simp [h1, Nat.eq_zero_of_not_pos h1]
  · simp only [convertValue, reduceCtorEq, if_false, dif_neg h]
    by_cases h1 : 0 < b.length
    · by_cases h2 : b.length < 65535
      · simp [h1, h2]
      · simp [h1, h2]
    · simp [h1, Nat.eq_zero_of_not_pos h1]

/-- C2 witness: the amended characterization applied to the two-byte value
0x41 0x42 on a BLOB column. -/
theorem heuristic_fallback_characterization_witness :
    strContainsSub (strToUpper (["blob"].getD 0 "")) "TEXT" = false
    ∧ convertValue ["blob"] (.bytes [65, 66]) 0 = .str [65, 66] :=
  ⟨by decide,
   (heuristic_fallback_characterization ["blob"] [65, 66] 0 (by decide)).trans (by decide)⟩

/-! ## Claim C3 -/

/-- C3 counterexample: the claim says a SHOW GRANTS output granting
ALL PRIVILEGES also passes the preflight permission check.  It does not:
the checker only searches for the three required privilege names as
substrings, and a plain `GRANT ALL PRIVILEGES` line contains none of them,
so the check fails on it. -/
theorem all_privileges_grant_fails_check :
    strContainsSub (strToUpper "GRANT ALL PRIVILEGES ON *.* TO `cdc`@`%`") "ALL PRIVILEGES" = true
    ∧ checkRequiredGrants "GRANT ALL PRIVILEGES ON *.* TO `cdc`@`%`" = false := by decide

/-- C3 amended: the preflight permission check passes exactly when the
upper-cased SHOW GRANTS output contains all of REPLICATION SLAVE,
REPLICATION CLIENT and SELECT as substrings (equivalently: contains each of
them case-insensitively); a grant of ALL PRIVILEGES does not by itself
satisfy the check.  In `main` the check runs, fatally on failure, before
`binlog.NewReader` opens the replication session (src/unnamed/part_004
main.go). -/
theorem grant_check_characterization (g : String) :
    checkRequiredGrants g =
      (strContainsSub (strToUpper g) "REPLICATION SLAVE"
       && strContainsSub (strToUpper g) "REPLICATION CLIENT"
       && strContainsSub (strToUpper g) "SELECT") := by
  simp only [checkRequiredGrants, requiredPrivs]
  cases h1 : strContainsSub (strToUpper g) "REPLICATION SLAVE" <;>
  cases h2 : strContainsSub (strToUpper g) "REPLICATION CLIENT" <;>
  cases h3 : strContainsSub (strToUpper g) "SELECT" <;>
  simp [List.filter, h1, h2, h3]

/-! ## Claim C4 -/

/-- C4 counterexample: the claim says the output key is the rename target
whenever the input field matches a rename source key case-insensitively.
With the rename source configured as "Email" and the input field "Email"
(a case-insensitive match, even an exact one), the code does not rename:
it looks up the lower-cased field name by exact match in the rename map,
and the map holds "Email", not "email". -/
theorem mixed_case_rename_source_not_applied :
    transformRow (fun _ => (0 : Nat)) ⟨"", "", [], [], [("Email", "user_email")], []⟩
        [("Email", 7)] = [("Email", 7)]
    ∧ ("user_email", 7) ∉ transformRow (fun _ => (0 : Nat))
        ⟨"", "", [], [], [("Email", "user_email")], []⟩ [("Email", 7)] := by decide

/-- C4 amended: in rule mode, for every input field `k` that survives
include/exclude filtering, the output key is the rename target whenever the
rename map contains the lower-cased form of `k` as an exact key, and the
original `k` otherwise; the value is copied unchanged.  (Matching is
case-insensitive only on the input side: rename source keys must be
configured in lower case to ever match.) -/
theorem rule_mode_field_mapping {α : Type} (toVal : String → α)
    (rule : RuleMatcher) (row : List (String × α)) (k : String) (v : α)
    (hmem : (k, v) ∈ row)
    (hexc : ((!rule.excludeFields.isEmpty) && rule.excludeFields.contains (strToLower k)) = false)
    (hinc : ((!rule.includeFields.isEmpty) && !(rule.includeFields.contains (strToLower k))) = false) :
    ((rule.rename.lookup (strToLower k)).getD k, v) ∈ transformRow toVal rule row := by
  unfold transformRow
  refine List.mem_append.2 (Or.inr ?_)
  refine List.mem_filterMap.2 ⟨(k, v), hmem, ?_⟩
  simp only [hexc, hinc, Bool.false_eq_true, if_false]
  cases hlk : rule.rename.lookup (strToLower k) <;> simp [hlk]

/-- C4 witness: the amended mapping applied to the field "EMAIL" under a
lower-cased rename source "email"; the output key is the rename target. -/
theorem rule_mode_field_mapping_witness :
    ("user_email", 3) ∈ transformRow (fun _ => (0 : Nat))
      ⟨"", "", [], [], [("email", "user_email")], []⟩ [("EMAIL", 3)] := by
  have h := rule_mode_field_mapping (fun _ => (0 : Nat))
      ⟨"", "", [], [], [("email", "user_email")], []⟩ [("EMAIL", 3)] "EMAIL" 3
      (by decide) (by decide) (by decide)
  exact (by decide :
    ((List.lookup (strToLower "EMAIL") [("email", "user_email")]).getD "EMAIL", 3)
      = ("user_email", 3)) ▸ h

/-! ## Claim C5 -/

/-- C5 counterexample: the claim says distinct (db, table) pairs always use
distinct cache entries.  The cache key is the bare concatenation
`db ++ "." ++ table`, so the distinct pairs ("a.b", "c") and ("a", "b.c")
collide on the key "a.b.c": after the entry for ("a.b", "c") is cached, a
lookup for the different table ("a", "b.c") returns that cached result. -/
theorem schema_cache_key_collision :
    cacheKey "a.b" "c" = cacheKey "a" "b.c"
    ∧ ("a.b", "c") ≠ (("a", "b.c") : String × String)
    ∧ (getColumnInfo (getColumnInfo ⟨[], []⟩ "a.b" "c" ["x"] ["int"]).2
        "a" "b.c" ["y"] ["text"]).1 = (["x"], ["int"]) := by decide

/-- C5 amended: schema cache entries are keyed by the concatenation
`db ++ "." ++ table`; whenever neither database name contains a dot, two
pairs share a cache key exactly when they are equal, so distinct pairs with
dot-free database names use distinct entries.  (Pairs whose concatenations
coincide — possible only with a dot inside a name — share an entry.) -/
theorem cacheKey_injective_on_dotfree (db1 t1 db2 t2 : String)
    (h1 : '.' ∉ db1.toList) (h2 : '.' ∉ db2.toList) :
    (cacheKey db1 t1 = cacheKey db2 t2) ↔ (db1 = db2 ∧ t1 = t2) := by
  constructor
  · intro h
    have h3 := congrArg String.data h
    simp only [cacheKey] at h3
    have hd : db1.data ++ '.' :: t1.data = db2.data ++ '.' :: t2.data := by
      simpa using h3
    obtain ⟨hl, hr⟩ := append_cons_inj_of_not_mem h1 h2 hd
    exact ⟨String.ext hl, String.ext hr⟩
  · rintro ⟨rfl, rfl⟩
    rfl

/-- C5 witness: the amended key discipline applied to the dot-free names
"shop" and "orders". -/
theorem cacheKey_injective_on_dotfree_witness :
    cacheKey "shop" "orders" = cacheKey "shop" "orders" :=
  (cacheKey_injective_on_dotfree "shop" "orders" "shop" "orders"
    (by decide) (by decide)).2 ⟨rfl, rfl⟩

/-! ## Claim C6 -/

/-- C6: in script mode, for every event whose resolved transform function
returns null or undefined, the transformer reports `ErrEventRejected`, the
pipeline step publishes nothing — the Sink receives no message for that
event — and the loop continues with the next event (every branch of the
modelled step falls through to the next loop iteration). -/
theorem script_null_or_undefined_drops_event (result : JSReturn)
    (h : result = .jsNull ∨ result = .jsUndefined) :
    startPublishStep (transformWithJavaScript result) = none := by
  rcases h with h | h <;> subst h <;> rfl

/-- C6 witness: a null return drops the event. -/
theorem script_null_or_undefined_drops_event_witness :
    startPublishStep (transformWithJavaScript .jsNull) = none :=
  script_null_or_undefined_drops_event .jsNull (Or.inl rfl)

/-! ## Claim C7 -/

/-- C8: after the source delivers a rotate event announcing next file F (a
non-empty name) at an offset P representable in 32 bits, the position file
contains exactly the string "F:P" and the in-memory current file is F. -/
theorem rotate_persists_position (s : ReaderState) (nextLogName : String) (position : Nat)
    (hname : nextLogName ≠ "") (hpos : position < 2 ^ 32) :
    (readEventRotate s nextLogName position).posFile
        = some (nextLogName ++ ":" ++ toString position)
    ∧ (readEventRotate s nextLogName position).currentFile = nextLogName := by
  have hmod : position % 2 ^ 32 = position := Nat.mod_eq_of_lt hpos
  have hmod2 : position % 4294967296 = position := hmod
  simp [readEventRotate, savePosition, hname, hmod, hmod2]

/-- C8 witness: a rotate to mysql-bin.000005 at offset 4 leaves the file
containing exactly "mysql-bin.000005:4", matching the end-to-end scenario
in the specification. -/
theorem rotate_persists_position_witness :
    (readEventRotate ⟨"", 0, "", none⟩ "mysql-bin.000005" 4).posFile = some "mysql-bin.000005:4"
    ∧ (readEventRotate ⟨"", 0, "", none⟩ "mysql-bin.000005" 4).currentFile = "mysql-bin.000005" := by
  have h := rotate_persists_position ⟨"", 0, "", none⟩ "mysql-bin.000005" 4 (by decide) (by decide)
  exact ⟨h.1.trans (by decide), h.2⟩

/-! ## Claim C9 -/

/-- C9: every ChangeEvent emitted by the row decoder satisfies the claimed
shape.  For INSERT or DELETE with at least one tuple, old rows are empty
and the emitted rows have the same (positive) length as the tuples.  For
UPDATE, when the tuples interleave a pre-image list with a post-image list
of the same positive length — the 2i-th raw tuple is the i-th pre-image and
the (2i+1)-th the i-th post-image — the emitted old rows are exactly the
decoded pre-images, the emitted rows exactly the decoded post-images, and
both have the same positive length. -/
theorem row_event_shape_invariant (db tbl : String) (ts : Int) (cols types : List String) :
    (∀ (tuples : List (List GoValue)) (et : String),
        (et = "INSERT" ∨ et = "DELETE") → tuples ≠ [] →
        (processRowEvent db tbl ts cols types tuples et).oldRows = []
        ∧ (processRowEvent db tbl ts cols types tuples et).rows.length = tuples.length
        ∧ 1 ≤ (processRowEvent db tbl ts cols types tuples et).rows.length)
    ∧ (∀ olds news : List (List GoValue), olds.length = news.length → olds ≠ [] →
        (processRowEvent db tbl ts cols types (interleave2 olds news) "UPDATE").oldRows
          = olds.map (mkRowMap cols types)
        ∧ (processRowEvent db tbl ts cols types (interleave2 olds news) "UPDATE").rows
          = news.map (mkRowMap cols types)
        ∧ (processRowEvent db tbl ts cols types (interleave2 olds news) "UPDATE").rows.length
          = (processRowEvent db tbl ts cols types (interleave2 olds news) "UPDATE").oldRows.length
        ∧ 1 ≤ (processRowEvent db tbl ts cols types (interleave2 olds news) "UPDATE").oldRows.length) := by
  constructor
  · intro tuples et het hne
    have hnu : ¬(et = "UPDATE") := by
      rcases het with h | h <;> subst h <;> decide
    have hp : 0 < tuples.length := List.length_pos.2 hne
    refine ⟨?_, ?_, ?_⟩
    · simp [processRowEvent, hnu]
    · simp [processRowEvent, hnu]
    · simp [processRowEvent, hnu]
      omega
  · intro olds news hlen hne
    have hup : updatePairs (interleave2 olds news) = olds.zip news :=
      updatePairs_interleave2 olds news hlen
    have hfst : (olds.zip news).map (fun p => mkRowMap cols types p.1)
        = olds.map (mkRowMap cols types) := by
      calc (olds.zip news).map (fun p => mkRowMap cols types p.1)
          = ((olds.zip news).map Prod.fst).map (mkRowMap cols types) := by
            rw [List.map_map]; rfl
        _ = olds.map (mkRowMap cols types) := by
            rw [List.map_fst_zip olds news (le_of_eq hlen)]
    have hsnd : (olds.zip news).map (fun p => mkRowMap cols types p.2)
        = news.map (mkRowMap cols types) := by
      calc (olds.zip news).map (fun p => mkRowMap cols types p.2)
          = ((olds.zip news).map Prod.snd).map (mkRowMap cols types) := by
            rw [List.map_map]; rfl
        _ = news.map (mkRowMap cols types) := by
            rw [List.map_snd_zip olds news (le_of_eq hlen.symm)]
    have hp : 0 < olds.length := List.length_pos.2 hne
    refine ⟨?_, ?_, ?_, ?_⟩ <;> simp [processRowEvent, hup, hfst, hsnd] <;> omega

/-- C9 witness: the shape invariant applied to a one-row INSERT and a
one-pair UPDATE. -/
theorem row_event_shape_invariant_witness :
    (processRowEvent "shop" "orders" 0 ["id"] ["int(11)"] [[GoValue.intV 42]] "INSERT").oldRows = []
    ∧ 1 ≤ (processRowEvent "shop" "orders" 0 ["id"] ["int(11)"] [[GoValue.intV 42]] "INSERT").rows.length
    ∧ (processRowEvent "shop" "orders" 0 ["st"] ["text"]
        (interleave2 [[GoValue.str [110]]] [[GoValue.str [100]]]) "UPDATE").rows.length
      = (processRowEvent "shop" "orders" 0 ["st"] ["text"]
        (interleave2 [[GoValue.str [110]]] [[GoValue.str [100]]]) "UPDATE").oldRows.length := by
  have h1 := (row_event_shape_invariant "shop" "orders" 0 ["id"] ["int(11)"]).1
      [[GoValue.intV 42]] "INSERT" (Or.inl rfl) (by decide)
  have h2 := (row_event_shape_invariant "shop" "orders" 0 ["st"] ["text"]).2
      [[GoValue.str [110]]] [[GoValue.str [100]]] rfl (by decide)
  exact ⟨h1.1, h1.2.2, h2.2.2.1⟩

/-! ## Claim C10 -/

/-- C10: a call to SavePosition with an empty name argument while the
remembered current file name is also empty returns success without
performing any write: the position file content and the in-memory position
are both unchanged. -/
theorem save_position_empty_noop (s : ReaderState) (pos : Nat)
    (h : s.currentFile = "") : savePosition s "" pos = s := by
  simp [savePosition, h]

/-- C10 witness: the no-op on a concrete state with an empty current file. -/
theorem save_position_empty_noop_witness :
    savePosition ⟨"old", 3, "", some "old:3"⟩ "" 7 = ⟨"old", 3, "", some "old:3"⟩ :=
  save_position_empty_noop ⟨"old", 3, "", some "old:3"⟩ 7 rfl
